import Mathlib

/-!
Verification of the marker-to-document renderer of the resume-rewriter
repository (`src/function_app/docx_generator.py`).  The Python function
`text_to_docx` walks a list of marker-tagged lines and builds a list of
styled paragraphs while threading two "open block" trackers
(`last_job_para`, `last_edu_para`).  The shallow embedding below mirrors
that code: a paragraph is a list of runs plus paragraph-level style data,
the document is the append-only list of paragraphs, the trackers are
indices into that list (the Python references stay valid because the
document only ever grows), and the per-line dispatch is a function from
the interpreter state to the next state.  The only fallible spot in the
Python code is `doc.paragraphs[-1]` in the SKILLS handler, which raises
IndexError on an empty document (a fresh python-docx `Document()` has no
paragraphs); the embedding models that with `Except`.
-/

/-- Python `str.strip` whitespace set (space, tab, newline, carriage
return, vertical tab, form feed). -/
def isPySpace (c : Char) : Bool :=
  c == ' ' || c == '\t' || c == '\n' || c == '\r' || c == '\x0b' || c == '\x0c'

/-- Python `str.strip()` on a character list: drop whitespace from both ends. -/
def pstripL (l : List Char) : List Char :=
  (((l.dropWhile isPySpace).reverse).dropWhile isPySpace).reverse

/-- Python `str.strip()`. -/
def pstrip (s : String) : String := String.mk (pstripL s.data)

/-- Fuelled worker for `splitSep`; the fuel is the input length, which is
always enough because each step consumes at least one character. -/
def splitSepAux (sep : List Char) : Nat → List Char → List (List Char)
  | _, [] => [[]]
  | 0, l => [l]
  | Nat.succ fuel, c :: rest =>
    if sep.isPrefixOf (c :: rest) then
      [] :: splitSepAux sep fuel (rest.drop (sep.length - 1))
    else
      match splitSepAux sep fuel rest with
      | [] => [[c]]
      | h :: tl => (c :: h) :: tl

/-- Python `str.split(sep)` for a non-empty separator: split on each
non-overlapping occurrence, left to right; `"".split(sep) = [""]`. -/
def splitSep (sep : List Char) (l : List Char) : List (List Char) :=
  splitSepAux sep l.length l

/-- Python substring test `pat in s` for a non-empty pattern. -/
def containsSub (pat : List Char) : List Char → Bool
  | [] => pat.isEmpty
  | c :: rest => pat.isPrefixOf (c :: rest) || containsSub pat rest

/-- Case-insensitive prefix matching: if `p` is a prefix of the second
list up to `Char.toLower`, return the remainder. -/
def ciPrefixDrop : List Char → List Char → Option (List Char)
  | [], l => some l
  | _ :: _, [] => none
  | p :: ps, c :: cs => if p.toLower == c.toLower then ciPrefixDrop ps cs else none

/-- One marker pattern `^\s*\[TAG\]\s*(.*)` from `text_to_docx`, applied
with `re.match` and `re.IGNORECASE`, followed by `.group(1).strip()`:
skip leading whitespace, match `[TAG]` case-insensitively, and return the
stripped payload. -/
def matchTag (tag : List Char) (line : List Char) : Option String :=
  match ciPrefixDrop ('[' :: tag ++ [']']) (line.dropWhile isPySpace) with
  | some rest => some (String.mk (pstripL rest))
  | none => none

/-- The marker kinds of the `patterns` table, plus `PLAIN` for an
unmatched line. -/
inductive Kind where
  | NAME | CONTACT | SUMMARY | SECTION_HEADER | JOB_TITLE | COMPANY
  | DATES | LOCATION | BULLET | SKILL_CATEGORY | SKILLS
  | EDUCATION_DEGREE | EDUCATION_SCHOOL | EDUCATION_DATES | EDUCATION_DETAILS
  | PLAIN
deriving DecidableEq, Repr

/-- The `patterns` dict of `text_to_docx`, in its insertion (iteration)
order. -/
def tagList : List (Kind × List Char) :=
  [(Kind.NAME, ("NAME").data),
   (Kind.CONTACT, ("CONTACT").data),
   (Kind.SUMMARY, ("SUMMARY").data),
   (Kind.SECTION_HEADER, ("SECTION_HEADER").data),
   (Kind.JOB_TITLE, ("JOB_TITLE").data),
   (Kind.COMPANY, ("COMPANY").data),
   (Kind.DATES, ("DATES").data),
   (Kind.LOCATION, ("LOCATION").data),
   (Kind.BULLET, ("BULLET").data),
   (Kind.SKILL_CATEGORY, ("SKILL_CATEGORY").data),
   (Kind.SKILLS, ("SKILLS").data),
   (Kind.EDUCATION_DEGREE, ("EDUCATION_DEGREE").data),
   (Kind.EDUCATION_SCHOOL, ("EDUCATION_SCHOOL").data),
   (Kind.EDUCATION_DATES, ("EDUCATION_DATES").data),
   (Kind.EDUCATION_DETAILS, ("EDUCATION_DETAILS").data)]

/-- The `for marker_type, pattern in patterns.items()` loop: the first
tag that matches consumes the line. -/
def findTag : List (Kind × List Char) → List Char → Option (Kind × String)
  | [], _ => none
  | (k, tg) :: rest, l =>
    match matchTag tg l with
    | some t => some (k, t)
    | none => findTag rest l

/-- The kind a (stripped) line is classified as. -/
def parseKind (line : String) : Kind :=
  match findTag tagList line.data with
  | some (k, _) => k
  | none => Kind.PLAIN

/-- Paragraph alignment values used by the renderer
(`WD_ALIGN_PARAGRAPH.CENTER` / `RIGHT`); `none` is the default. -/
inductive Align where
  | center | right
deriving DecidableEq, Repr

/-- Paragraph styles used by the renderer: `Normal` (default) and
`List Bullet`. -/
inductive PStyle where
  | normal | listBullet
deriving DecidableEq, Repr

/-- One text run: its text and the run-level formatting the code sets
(`bold`, `italic`, font size in points; `none` size means inherited). -/
structure Run where
  text : String
  bold : Bool
  italic : Bool
  size : Option Nat
deriving DecidableEq, Repr

/-- A tab stop: position in EMU and alignment.  `Inches(6.5)` is
`6.5 * 914400 = 5943600` EMU. -/
structure TabStop where
  pos : Nat
  align : Align
deriving DecidableEq, Repr

/-- One emitted paragraph: style, runs, alignment, spacing (points),
tab stops, bottom border decoration, and left indent (EMU). -/
structure Para where
  style : PStyle
  runs : List Run
  align : Option Align
  spaceAfter : Nat
  spaceBefore : Nat
  tabStops : List TabStop
  bottomBorder : Bool
  leftIndent : Nat
deriving DecidableEq, Repr

/-- The concatenated text of a paragraph's runs, as a character list
(python-docx `paragraph.text`). -/
def Para.textData (p : Para) : List Char :=
  (p.runs.map (fun r => r.text.data)).flatten

/-- Used as the out-of-range default for `getP`; tracker indices are in
fact always in range (see `reachable_inv`). -/
def emptyPara : Para :=
  { style := PStyle.normal, runs := [], align := none, spaceAfter := 4,
    spaceBefore := 0, tabStops := [], bottomBorder := false, leftIndent := 0 }

/-- Look up the paragraph at an index. -/
def getP : List Para → Nat → Para
  | [], _ => emptyPara
  | p :: _, 0 => p
  | _ :: ps, Nat.succ n => getP ps n

/-- Mutate the paragraph at an index in place (python-docx paragraph
references are modelled as indices into the append-only document). -/
def modifyAt : List Para → Nat → (Para → Para) → List Para
  | [], _, _ => []
  | p :: ps, 0, f => f p :: ps
  | p :: ps, Nat.succ n, f => p :: modifyAt ps n f

/-- The paragraph built by `add_styled_paragraph(doc, text, size=, bold=,
italic=, align=, space_after=, space_before=)`. -/
def styledPara (text : String) (size : Option Nat) (bold italic : Bool)
    (align : Option Align) (space_after space_before : Nat) : Para :=
  { style := PStyle.normal,
    runs := [{ text := text, bold := bold, italic := italic, size := size }],
    align := align, spaceAfter := space_after, spaceBefore := space_before,
    tabStops := [], bottomBorder := false, leftIndent := 0 }

/-- `add_styled_paragraph`: append one styled paragraph to the document. -/
def add_styled_paragraph (doc : List Para) (text : String) (size : Option Nat)
    (bold italic : Bool) (align : Option Align) (space_after space_before : Nat) :
    List Para :=
  doc ++ [styledPara text size bold italic align space_after space_before]

/-- `add_horizontal_line(p)`: set a bottom border on the paragraph just
added (always called on the last paragraph). -/
def add_horizontal_line (doc : List Para) : List Para :=
  modifyAt doc (doc.length - 1) (fun p => { p with bottomBorder := true })

/-- True when the last character is `.`, `!` or `?`
(the `sentence[-1] not in ['.', '!', '?']` test, negated). -/
def endsTerminal (s : String) : Bool :=
  match s.data.getLast? with
  | some c => c == '.' || c == '!' || c == '?'
  | none => false

/-- The run-building loop of `add_bullet_point`: `n` is
`len(sentences)`, `first` is the `first_sentence` flag, `i` the
enumeration index.  A sentence blank after stripping is skipped; a
period is re-appended unless the sentence is last and already ends in
terminal punctuation; the first kept sentence is bold at level 0. -/
def bulletLoopRuns (n level : Nat) : Bool → Nat → List String → List Run
  | _, _, [] => []
  | first, i, sent :: rest =>
    if pstrip sent = "" then
      bulletLoopRuns n level first (i + 1) rest
    else
      let sent2 := if i < n - 1 || !(endsTerminal sent) then sent ++ "." else sent
      if first then
        { text := sent2 ++ " ", bold := level == 0, italic := false, size := none }
          :: bulletLoopRuns n level false (i + 1) rest
      else
        { text := sent2 ++ " ", bold := false, italic := false, size := none }
          :: bulletLoopRuns n level false (i + 1) rest

/-- The final fix-up loop of `add_bullet_point` sets every run's font to
the `Normal` style font (Calibri 10pt); only the size is tracked here. -/
def setRunSize (n : Nat) (r : Run) : Run := { r with size := some n }

/-- `add_bullet_point(doc, text, level=0, space_after=Pt(2))`: a
`List Bullet` paragraph, indented `Inches(0.25 * (level + 1))`
(`228600 * (level + 1)` EMU), whose runs come from splitting the text on
`". "`. -/
def add_bullet_point (t : String) (level : Nat) : Para :=
  let sentences := (splitSep (['.', ' ']) t.data).map String.mk
  { style := PStyle.listBullet,
    runs := (bulletLoopRuns sentences.length level true 0 sentences).map (setRunSize 10),
    align := none, spaceAfter := 2, spaceBefore := 0, tabStops := [],
    bottomBorder := false, leftIndent := 228600 * (level + 1) }

/-- The interpreter state of the `for line in lines` loop: the document
built so far plus the two open-block trackers, held as indices into the
document (the Python code holds paragraph references; indices are stable
because the document is append-only). -/
structure State where
  doc : List Para
  last_job_para : Option Nat
  last_edu_para : Option Nat
deriving DecidableEq, Repr

/-- The state before any line is processed: a fresh python-docx
`Document()` has no paragraphs. -/
def initState : State := { doc := [], last_job_para := none, last_edu_para := none }

/-- The only runtime error the embedding can produce: `paragraphs[-1]`
on an empty document in the SKILLS handler. -/
inductive DocxError where
  | indexError
deriving DecidableEq, Repr

/-- NAME handler: centered, 16pt, bold, space after 2. -/
def stepName (s : State) (t : String) : State :=
  { s with doc := add_styled_paragraph s.doc t (some 16) true false (some Align.center) 2 0 }

/-- CONTACT handler: centered 9pt paragraph with a horizontal rule. -/
def stepContact (s : State) (t : String) : State :=
  let d := add_styled_paragraph s.doc t (some 9) false false (some Align.center) 6 0
  { s with doc := add_horizontal_line d }

/-- The phrase hardcoded in the SUMMARY handler. -/
def usCitizenChars : List Char := ("US Citizen").data

/-- The `for i, summary_line in enumerate(summary_lines)` loop of the
SUMMARY handler: the first sub-line is bold when it contains the literal
phrase `US Citizen`, every other sub-line is a default-weight paragraph. -/
def summaryLoop (i : Nat) (doc : List Para) : List String → List Para
  | [] => doc
  | sl :: rest =>
    if i == 0 && containsSub usCitizenChars sl.data then
      summaryLoop (i + 1) (add_styled_paragraph doc sl none true false none 2 0) rest
    else
      summaryLoop (i + 1) (add_styled_paragraph doc sl none false false none 2 0) rest

/-- SUMMARY handler: split the payload on newlines and emit one
paragraph per sub-line. -/
def stepSummary (s : State) (t : String) : State :=
  { s with doc := summaryLoop 0 s.doc ((splitSep (['\n']) t.data).map String.mk) }

/-- SECTION_HEADER handler: upper-cased, 11pt, bold, extra space before,
horizontal rule. -/
def stepSectionHeader (s : State) (t : String) : State :=
  let d := add_styled_paragraph s.doc t.toUpper (some 11) true false none 3 6
  { s with doc := add_horizontal_line d }

/-- JOB_TITLE handler: bold paragraph, tracked by `last_job_para`. -/
def stepJobTitle (s : State) (t : String) : State :=
  { s with doc := add_styled_paragraph s.doc t none true false none 0 0,
           last_job_para := some s.doc.length }

/-- The run the COMPANY handler appends:
`last_job_para.add_run(f" | {text}").italic = True`. -/
def attachCompanyRun (t : String) (p : Para) : Para :=
  { p with runs := p.runs ++ [{ text := " | " ++ t, bold := false, italic := true, size := none }] }

/-- COMPANY handler: if `last_job_para` is set and its text is non-blank
after stripping, append `" | <company>"` as an italic run to it;
otherwise start a new italic paragraph and track it. -/
def stepCompany (s : State) (t : String) : State :=
  match s.last_job_para with
  | some j =>
    if pstripL (getP s.doc j).textData = [] then
      { s with doc := add_styled_paragraph s.doc t none false true none 0 0,
               last_job_para := some s.doc.length }
    else
      { s with doc := modifyAt s.doc j (attachCompanyRun t) }
  | none =>
    { s with doc := add_styled_paragraph s.doc t none false true none 0 0,
             last_job_para := some s.doc.length }

/-- The mutation of the DATES handler on the open job paragraph: add a
right-aligned tab stop at `Inches(6.5)` (5943600 EMU), append the run
`"\t" + text`, and tighten the space after to 2. -/
def attachJobDates (t : String) (p : Para) : Para :=
  { p with tabStops := p.tabStops ++ [{ pos := 5943600, align := Align.right }],
           runs := p.runs ++ [{ text := "\t" ++ t, bold := false, italic := false, size := none }],
           spaceAfter := 2 }

/-- DATES handler: if `last_job_para` is set (no text check), attach the
date to it and clear the tracker; otherwise emit a standalone
right-aligned paragraph. -/
def stepDates (s : State) (t : String) : State :=
  match s.last_job_para with
  | some j =>
    { s with doc := modifyAt s.doc j (attachJobDates t), last_job_para := none }
  | none =>
    { s with doc := add_styled_paragraph s.doc t none false false (some Align.right) 2 0 }

/-- LOCATION handler: standalone italic 9pt paragraph. -/
def stepLocation (s : State) (t : String) : State :=
  { s with doc := add_styled_paragraph s.doc t (some 9) false true none 2 0 }

/-- BULLET handler: one bullet paragraph at level 0. -/
def stepBullet (s : State) (t : String) : State :=
  { s with doc := s.doc ++ [add_bullet_point t 0] }

/-- SKILL_CATEGORY handler: bold paragraph reading `<text>: `. -/
def stepSkillCategory (s : State) (t : String) : State :=
  { s with doc := add_styled_paragraph s.doc (t ++ ": ") none true false none 0 3 }

/-- The `doc.paragraphs[-1].text.endswith(": ")` test. -/
def endsWithColonSpace (l : List Char) : Bool :=
  List.isSuffixOf ([':', ' ']) l

/-- The inline mutation of the SKILLS handler: append the payload as a
plain run on the last paragraph and set its space after to 3. -/
def attachSkillsRun (t : String) (p : Para) : Para :=
  { p with runs := p.runs ++ [{ text := t, bold := false, italic := false, size := none }],
           spaceAfter := 3 }

/-- SKILLS handler: `doc.paragraphs[-1]` raises IndexError on an empty
document; otherwise append inline when the last paragraph's text ends
with `": "`, else start a new standalone paragraph. -/
def stepSkills (s : State) (t : String) : Except DocxError State :=
  match s.doc.getLast? with
  | none => Except.error DocxError.indexError
  | some p =>
    if endsWithColonSpace p.textData then
      Except.ok { s with doc := modifyAt s.doc (s.doc.length - 1) (attachSkillsRun t) }
    else
      Except.ok { s with doc := add_styled_paragraph s.doc t none false false none 3 0 }

/-- EDUCATION_DEGREE handler: bold paragraph, tracked by `last_edu_para`. -/
def stepEduDegree (s : State) (t : String) : State :=
  { s with doc := add_styled_paragraph s.doc t none true false none 0 0,
           last_edu_para := some s.doc.length }

/-- The run the EDUCATION_SCHOOL handler appends:
`last_edu_para.add_run(f", {text}").italic = True`. -/
def attachSchoolRun (t : String) (p : Para) : Para :=
  { p with runs := p.runs ++ [{ text := ", " ++ t, bold := false, italic := true, size := none }] }

/-- EDUCATION_SCHOOL handler: same pairing pattern as COMPANY with
`last_edu_para` and a `", "` separator. -/
def stepEduSchool (s : State) (t : String) : State :=
  match s.last_edu_para with
  | some j =>
    if pstripL (getP s.doc j).textData = [] then
      { s with doc := add_styled_paragraph s.doc t none false true none 0 0,
               last_edu_para := some s.doc.length }
    else
      { s with doc := modifyAt s.doc j (attachSchoolRun t) }
  | none =>
    { s with doc := add_styled_paragraph s.doc t none false true none 0 0,
             last_edu_para := some s.doc.length }

/-- The mutation of the EDUCATION_DATES handler on the open education
paragraph: identical to `attachJobDates` (tab stop at `Inches(6.5)`,
run `"\t" + text`, space after 2). -/
def attachEduDates (t : String) (p : Para) : Para :=
  { p with tabStops := p.tabStops ++ [{ pos := 5943600, align := Align.right }],
           runs := p.runs ++ [{ text := "\t" ++ t, bold := false, italic := false, size := none }],
           spaceAfter := 2 }

/-- EDUCATION_DATES handler: unlike DATES, the attach branch also
requires the tracked paragraph's stripped text to be non-empty. -/
def stepEduDates (s : State) (t : String) : State :=
  match s.last_edu_para with
  | some j =>
    if pstripL (getP s.doc j).textData = [] then
      { s with doc := add_styled_paragraph s.doc t none false false (some Align.right) 2 0 }
    else
      { s with doc := modifyAt s.doc j (attachEduDates t), last_edu_para := none }
  | none =>
    { s with doc := add_styled_paragraph s.doc t none false false (some Align.right) 2 0 }

/-- EDUCATION_DETAILS handler: standalone 9pt italic paragraph. -/
def stepEduDetails (s : State) (t : String) : State :=
  { s with doc := add_styled_paragraph s.doc t (some 9) false true none 3 0 }

/-- The unmatched-line branch: a standalone default paragraph, clearing
both trackers. -/
def stepPlain (s : State) (line : String) : State :=
  { doc := add_styled_paragraph s.doc line none false false none 3 0,
    last_job_para := none, last_edu_para := none }

/-- One iteration of the `for line in lines` loop of `text_to_docx`:
strip the line, skip it when empty, try the marker patterns in order
(an empty payload is recognized but emits nothing), and otherwise
dispatch on the marker kind; an unmatched line is plain body text.
`Kind.PLAIN` never occurs in `tagList`, so its arm is unreachable. -/
def processLine (s : State) (raw : String) : Except DocxError State :=
  let line := pstrip raw
  if line = "" then Except.ok s
  else
    match findTag tagList line.data with
    | none => Except.ok (stepPlain s line)
    | some (k, t) =>
      if t = "" then Except.ok s
      else
        match k with
        | Kind.NAME => Except.ok (stepName s t)
        | Kind.CONTACT => Except.ok (stepContact s t)
        | Kind.SUMMARY => Except.ok (stepSummary s t)
        | Kind.SECTION_HEADER => Except.ok (stepSectionHeader s t)
        | Kind.JOB_TITLE => Except.ok (stepJobTitle s t)
        | Kind.COMPANY => Except.ok (stepCompany s t)
        | Kind.DATES => Except.ok (stepDates s t)
        | Kind.LOCATION => Except.ok (stepLocation s t)
        | Kind.BULLET => Except.ok (stepBullet s t)
        | Kind.SKILL_CATEGORY => Except.ok (stepSkillCategory s t)
        | Kind.SKILLS => stepSkills s t
        | Kind.EDUCATION_DEGREE => Except.ok (stepEduDegree s t)
        | Kind.EDUCATION_SCHOOL => Except.ok (stepEduSchool s t)
        | Kind.EDUCATION_DATES => Except.ok (stepEduDates s t)
        | Kind.EDUCATION_DETAILS => Except.ok (stepEduDetails s t)
        | Kind.PLAIN => Except.ok s

/-- Run the loop over a list of lines, stopping at the first error. -/
def renderLines (s : State) : List String → Except DocxError State
  | [] => Except.ok s
  | l :: ls =>
    match processLine s l with
    | Except.ok s' => renderLines s' ls
    | Except.error e => Except.error e

/-- `resume_text.strip().split("\n")`. -/
def linesOf (s : String) : List String :=
  (splitSep (['\n']) (pstrip s).data).map String.mk

/-- The full interpreter state after `text_to_docx` has processed every
line of the input. -/
def renderState (resume_text : String) : Except DocxError State :=
  renderLines initState (linesOf resume_text)

/-- `text_to_docx`, at the level of abstraction of this embedding: the
ordered list of styled paragraphs of the produced document (the DOCX
byte serialization is outside the model). -/
def text_to_docx (resume_text : String) : Except DocxError (List Para) :=
  (renderState resume_text).map State.doc

/-! Basic lemmas about stripping, ink (non-whitespace content) and the
paragraph-list primitives. -/

/-- A character list has "ink" when some character is not whitespace;
this is what makes Python `text.strip()` truthy. -/
def hasInk (l : List Char) : Bool := l.any (fun c => !(isPySpace c))

def trackerOk (doc : List Para) : Option Nat → Prop
  | none => True
  | some j => j < doc.length ∧ hasInk (getP doc j).textData = true

def InvState (s : State) : Prop :=
  trackerOk s.doc s.last_job_para ∧ trackerOk s.doc s.last_edu_para

inductive Reachable : State → Prop
  | init : Reachable initState
  | step {s s' : State} {l : String} :
      Reachable s → processLine s l = Except.ok s' → Reachable s'

def summarySpecPara (q : Nat × String) : Para :=
  styledPara q.2 none (q.1 == 0 && containsSub usCitizenChars q.2.data) false none 2 0

def swapState (s : State) : State :=
  { doc := s.doc, last_job_para := s.last_edu_para, last_edu_para := s.last_job_para }

def frameKinds : List Kind :=
  [Kind.NAME, Kind.CONTACT, Kind.SUMMARY, Kind.SECTION_HEADER, Kind.LOCATION,
   Kind.BULLET, Kind.SKILL_CATEGORY, Kind.SKILLS, Kind.EDUCATION_DETAILS]

def dispatchMarker (s : State) : Kind → String → Except DocxError State
  | Kind.NAME, t => Except.ok (stepName s t)
  | Kind.CONTACT, t => Except.ok (stepContact s t)
  | Kind.SUMMARY, t => Except.ok (stepSummary s t)
  | Kind.SECTION_HEADER, t => Except.ok (stepSectionHeader s t)
  | Kind.JOB_TITLE, t => Except.ok (stepJobTitle s t)
  | Kind.COMPANY, t => Except.ok (stepCompany s t)
  | Kind.DATES, t => Except.ok (stepDates s t)
  | Kind.LOCATION, t => Except.ok (stepLocation s t)
  | Kind.BULLET, t => Except.ok (stepBullet s t)
  | Kind.SKILL_CATEGORY, t => Except.ok (stepSkillCategory s t)
  | Kind.SKILLS, t => stepSkills s t
  | Kind.EDUCATION_DEGREE, t => Except.ok (stepEduDegree s t)
  | Kind.EDUCATION_SCHOOL, t => Except.ok (stepEduSchool s t)
  | Kind.EDUCATION_DATES, t => Except.ok (stepEduDates s t)
  | Kind.EDUCATION_DETAILS, t => Except.ok (stepEduDetails s t)
  | Kind.PLAIN, _ => Except.ok s

def jobTitleState : State :=
  { doc := [styledPara ("Engineer") none true false none 0 0],
    last_job_para := some 0, last_edu_para := none }

def eduDegreeState : State :=
  { doc := [styledPara ("BS Physics") none true false none 0 0],
    last_job_para := none, last_edu_para := some 0 }

def skillCatState : State :=
  { doc := [styledPara ("Languages: ") none true false none 0 3],
    last_job_para := none, last_edu_para := none }

def keepSentence (q : Nat × String) : Bool := !(pstrip q.2 == "")

def specFixSentence (n : Nat) (q : Nat × String) : String :=
  if q.1 == n - 1 && endsTerminal q.2 then q.2 else q.2 ++ "."

def specRunOf (n : Nat) (b : Bool) (q : Nat × String) : Run :=
  { text := specFixSentence n q ++ " ", bold := b, italic := false, size := some 10 }

def specBulletRuns (t : String) (level : Nat) : List Run :=
  let sentences := (splitSep (['.', ' ']) t.data).map String.mk
  (((sentences.enum).filter keepSentence).enum).map
    (fun z => specRunOf sentences.length (z.1 == 0 && level == 0) z.2)

def specBulletPara (t : String) : Para :=
  { style := PStyle.listBullet, runs := specBulletRuns t 0, align := none,
    spaceAfter := 2, spaceBefore := 0, tabStops := [], bottomBorder := false,
    leftIndent := 228600 }

theorem dropWhile_all_eq (p : Char → Bool) :
    ∀ l : List Char, (l.dropWhile p).all p = l.all p := by
  intro l
  induction l with
  | nil => rfl
  | cons a as ih =>
    by_cases ha : p a = true
    · simp [List.dropWhile_cons, ha, ih]
    · simp [List.dropWhile_cons, ha]

theorem dropWhile_eq_nil_iff_all (p : Char → Bool) (l : List Char) :
    l.dropWhile p = [] ↔ l.all p = true := by
  induction l with
  | nil => simp
  | cons a as ih =>
    by_cases ha : p a = true
    · simp [List.dropWhile_cons, ha, ih]
    · simp [List.dropWhile_cons, ha]

theorem pstripL_eq_nil_iff (l : List Char) :
    pstripL l = [] ↔ l.all isPySpace = true := by
  unfold pstripL
  rw [List.reverse_eq_nil_iff, dropWhile_eq_nil_iff_all, List.all_reverse,
    dropWhile_all_eq]

theorem hasInk_iff_not_all (l : List Char) :
    hasInk l = true ↔ ¬ (l.all isPySpace = true) := by
  simp [hasInk, List.any_eq_true, List.all_eq_true]

theorem dropWhile_head_false (p : Char → Bool) :
    ∀ (l : List Char) {c : Char} {cs : List Char},
      l.dropWhile p = c :: cs → p c = false := by
  intro l
  induction l with
  | nil => intro c cs h; simp at h
  | cons a as ih =>
    intro c cs h
    by_cases ha : p a = true
    · rw [List.dropWhile_cons, if_pos ha] at h
      exact ih h
    · rw [List.dropWhile_cons, if_neg ha] at h
      cases h
      exact Bool.not_eq_true _ |>.mp ha

/-- A non-empty stripped string always contains ink: its last character
is the head of the right-hand `dropWhile`, which is not whitespace. -/
theorem hasInk_pstripL {l : List Char} (h : ¬ pstripL l = []) :
    hasInk (pstripL l) = true := by
  unfold pstripL at h ⊢
  rcases hd : ((l.dropWhile isPySpace).reverse).dropWhile isPySpace with _ | ⟨c, cs⟩
  · rw [hd] at h; simp at h
  · have hc : isPySpace c = false := dropWhile_head_false isPySpace _ hd
    simp only [hasInk, List.any_eq_true]
    exact ⟨c, by simp, by simp [hc]⟩

theorem hasInk_of_pstrip_ne {l : List Char} (h : hasInk l = true) :
    ¬ pstripL l = [] := by
  intro h0
  rw [pstripL_eq_nil_iff] at h0
  exact (hasInk_iff_not_all l).mp h h0

theorem hasInk_append_left {a b : List Char} (h : hasInk a = true) :
    hasInk (a ++ b) = true := by
  simp only [hasInk, List.any_append, Bool.or_eq_true]
  exact Or.inl h

/-! Index / in-place-update lemmas for the paragraph list. -/

theorem length_modifyAt (l : List Para) (i : Nat) (f : Para → Para) :
    (modifyAt l i f).length = l.length := by
  induction l generalizing i with
  | nil => rfl
  | cons p ps ih =>
    cases i with
    | zero => rfl
    | succ n => simp [modifyAt, ih]

theorem getP_append_lt {l : List Para} (l2 : List Para) :
    ∀ {j}, j < l.length → getP (l ++ l2) j = getP l j := by
  induction l with
  | nil => intro j h; simp at h
  | cons p ps ih =>
    intro j h
    cases j with
    | zero => rfl
    | succ n => exact ih (Nat.lt_of_succ_lt_succ h)

theorem getP_append_len {l : List Para} {p : Para} :
    getP (l ++ [p]) l.length = p := by
  induction l with
  | nil => rfl
  | cons q qs ih => exact ih

theorem getP_modifyAt_self {l : List Para} {f : Para → Para} :
    ∀ {i}, i < l.length → getP (modifyAt l i f) i = f (getP l i) := by
  induction l with
  | nil => intro i h; simp at h
  | cons p ps ih =>
    intro i h
    cases i with
    | zero => rfl
    | succ n => exact ih (Nat.lt_of_succ_lt_succ h)

theorem getP_modifyAt_ne {l : List Para} {f : Para → Para} :
    ∀ {i j}, ¬ i = j → getP (modifyAt l i f) j = getP l j := by
  induction l with
  | nil => intro i j _; cases i <;> rfl
  | cons p ps ih =>
    intro i j hne
    cases i with
    | zero =>
      cases j with
      | zero => exact absurd rfl hne
      | succ m => rfl
    | succ n =>
      cases j with
      | zero => rfl
      | succ m => exact ih (fun h => hne (by rw [h]))

theorem getLast?_eq_getP {l : List Para} (h : ¬ l = []) :
    l.getLast? = some (getP l (l.length - 1)) := by
  induction l with
  | nil => exact absurd rfl h
  | cons p ps ih =>
    cases hps : ps with
    | nil => rfl
    | cons q qs =>
      subst hps
      rw [List.getLast?_cons_cons, ih (by simp)]
      rfl

/-! Text-content lemmas for the paragraph constructors and mutators. -/

theorem textData_styledPara (t : String) (sz : Option Nat) (b i : Bool)
    (a : Option Align) (sa sb : Nat) :
    (styledPara t sz b i a sa sb).textData = t.data := by
  simp [styledPara, Para.textData]

theorem textData_attachCompanyRun (t : String) (p : Para) :
    (attachCompanyRun t p).textData = p.textData ++ (" | " ++ t).data := by
  simp [attachCompanyRun, Para.textData]

theorem textData_attachSchoolRun (t : String) (p : Para) :
    (attachSchoolRun t p).textData = p.textData ++ (", " ++ t).data := by
  simp [attachSchoolRun, Para.textData]

theorem textData_attachJobDates (t : String) (p : Para) :
    (attachJobDates t p).textData = p.textData ++ ("\t" ++ t).data := by
  simp [attachJobDates, Para.textData]

theorem textData_attachEduDates (t : String) (p : Para) :
    (attachEduDates t p).textData = p.textData ++ ("\t" ++ t).data := by
  simp [attachEduDates, Para.textData]

theorem textData_attachSkillsRun (t : String) (p : Para) :
    (attachSkillsRun t p).textData = p.textData ++ t.data := by
  simp [attachSkillsRun, Para.textData]

/-! Tracker soundness: a set tracker is a valid index of a paragraph
whose text has ink.  This is the invariant of claim C9 and the bridge
needed to compare the DATES and EDUCATION_DATES handlers. -/

theorem trackerOk_append {doc : List Para} (ps : List Para) {o : Option Nat}
    (h : trackerOk doc o) : trackerOk (doc ++ ps) o := by
  cases o with
  | none => trivial
  | some j =>
    obtain ⟨hj, hink⟩ := h
    refine ⟨?_, ?_⟩
    · rw [List.length_append]; omega
    · rw [getP_append_lt _ hj]; exact hink

theorem trackerOk_modify {doc : List Para} {i : Nat} {f : Para → Para}
    (hf : ∀ p, hasInk p.textData = true → hasInk (f p).textData = true)
    {o : Option Nat} (h : trackerOk doc o) : trackerOk (modifyAt doc i f) o := by
  cases o with
  | none => trivial
  | some j =>
    obtain ⟨hj, hink⟩ := h
    refine ⟨by rw [length_modifyAt]; exact hj, ?_⟩
    by_cases hij : i = j
    · subst hij; rw [getP_modifyAt_self hj]; exact hf _ hink
    · rw [getP_modifyAt_ne hij]; exact hink

theorem trackerOk_new {doc : List Para} {t : String} {sz : Option Nat}
    {b i : Bool} {a : Option Align} {sa sb : Nat} (h : hasInk t.data = true) :
    trackerOk (doc ++ [styledPara t sz b i a sa sb]) (some doc.length) := by
  refine ⟨by rw [List.length_append]; simp, ?_⟩
  rw [getP_append_len, textData_styledPara]
  exact h

/-! The payload returned by the marker matcher is always a stripped
string, hence a non-empty payload has ink. -/

theorem matchTag_stripped {tg l : List Char} {t : String}
    (h : matchTag tg l = some t) : ∃ r, t = String.mk (pstripL r) := by
  unfold matchTag at h
  rcases hc : ciPrefixDrop ('[' :: tg ++ ([']'])) (l.dropWhile isPySpace) with _ | r
  · rw [hc] at h; cases h
  · rw [hc] at h
    injection h with h
    exact ⟨r, h.symm⟩

theorem findTag_stripped :
    ∀ (tl : List (Kind × List Char)) {l : List Char} {k : Kind} {t : String},
      findTag tl l = some (k, t) → ∃ r, t = String.mk (pstripL r) := by
  intro tl
  induction tl with
  | nil => intro l k t h; cases h
  | cons kp rest ih =>
    intro l k t h
    obtain ⟨k0, tg⟩ := kp
    simp only [findTag] at h
    rcases hm : matchTag tg l with _ | t0
    · rw [hm] at h; exact ih h
    · rw [hm] at h
      injection h with h
      obtain ⟨rfl, rfl⟩ := Prod.mk.inj h
      exact matchTag_stripped hm

theorem findTag_ink {l : List Char} {k : Kind} {t : String}
    (h : findTag tagList l = some (k, t)) (ht : ¬ t = "") :
    hasInk t.data = true := by
  obtain ⟨r, rfl⟩ := findTag_stripped tagList h
  have hne : ¬ pstripL r = [] := by
    intro h0
    exact ht (by rw [h0])
  exact hasInk_pstripL hne

/-! The states reachable by the interpreter, and the invariant they keep. -/

theorem inv_doc_append {s : State} (ps : List Para) (hs : InvState s) :
    InvState { s with doc := s.doc ++ ps } :=
  ⟨trackerOk_append ps hs.1, trackerOk_append ps hs.2⟩

theorem inv_add_hline {s : State} (ps : List Para) (hs : InvState s) :
    InvState { s with doc := add_horizontal_line (s.doc ++ ps) } := by
  have h1 := inv_doc_append ps hs
  have hf : ∀ p : Para, hasInk p.textData = true →
      hasInk (({ p with bottomBorder := true } : Para)).textData = true :=
    fun p hp => hp
  unfold add_horizontal_line
  exact ⟨trackerOk_modify hf h1.1, trackerOk_modify hf h1.2⟩

theorem inv_stepJobTitle {s : State} {t : String} (hink : hasInk t.data = true)
    (hs : InvState s) : InvState (stepJobTitle s t) :=
  ⟨trackerOk_new hink, trackerOk_append _ hs.2⟩

theorem inv_stepEduDegree {s : State} {t : String} (hink : hasInk t.data = true)
    (hs : InvState s) : InvState (stepEduDegree s t) :=
  ⟨trackerOk_append _ hs.1, trackerOk_new hink⟩

theorem inv_stepCompany {s : State} {t : String} (hink : hasInk t.data = true)
    (hs : InvState s) : InvState (stepCompany s t) := by
  unfold stepCompany
  split
  · split
    · exact ⟨trackerOk_new hink, trackerOk_append _ hs.2⟩
    · have hf : ∀ p, hasInk p.textData = true → hasInk ((attachCompanyRun t) p).textData = true := by
        intro p hp
        rw [textData_attachCompanyRun]
        exact hasInk_append_left hp
      exact ⟨trackerOk_modify hf hs.1, trackerOk_modify hf hs.2⟩
  · exact ⟨trackerOk_new hink, trackerOk_append _ hs.2⟩

theorem inv_stepEduSchool {s : State} {t : String} (hink : hasInk t.data = true)
    (hs : InvState s) : InvState (stepEduSchool s t) := by
  unfold stepEduSchool
  split
  · split
    · exact ⟨trackerOk_append _ hs.1, trackerOk_new hink⟩
    · have hf : ∀ p, hasInk p.textData = true → hasInk ((attachSchoolRun t) p).textData = true := by
        intro p hp
        rw [textData_attachSchoolRun]
        exact hasInk_append_left hp
      exact ⟨trackerOk_modify hf hs.1, trackerOk_modify hf hs.2⟩
  · exact ⟨trackerOk_append _ hs.1, trackerOk_new hink⟩

theorem inv_stepDates {s : State} {t : String} (hs : InvState s) :
    InvState (stepDates s t) := by
  unfold stepDates
  split
  · have hf : ∀ p, hasInk p.textData = true → hasInk ((attachJobDates t) p).textData = true := by
      intro p hp
      rw [textData_attachJobDates]
      exact hasInk_append_left hp
    exact ⟨trivial, trackerOk_modify hf hs.2⟩
  · exact ⟨trackerOk_append _ hs.1, trackerOk_append _ hs.2⟩

theorem inv_stepEduDates {s : State} {t : String} (hs : InvState s) :
    InvState (stepEduDates s t) := by
  unfold stepEduDates
  split
  · split
    · exact ⟨trackerOk_append _ hs.1, trackerOk_append _ hs.2⟩
    · have hf : ∀ p, hasInk p.textData = true → hasInk ((attachEduDates t) p).textData = true := by
        intro p hp
        rw [textData_attachEduDates]
        exact hasInk_append_left hp
      exact ⟨trackerOk_modify hf hs.1, trivial⟩
  · exact ⟨trackerOk_append _ hs.1, trackerOk_append _ hs.2⟩

theorem inv_stepSkills {s s' : State} {t : String} (hs : InvState s)
    (h : stepSkills s t = Except.ok s') : InvState s' := by
  unfold stepSkills at h
  split at h
  · cases h
  · split at h
    · injection h with h
      subst h
      have hf : ∀ p, hasInk p.textData = true → hasInk ((attachSkillsRun t) p).textData = true := by
        intro p hp
        rw [textData_attachSkillsRun]
        exact hasInk_append_left hp
      exact ⟨trackerOk_modify hf hs.1, trackerOk_modify hf hs.2⟩
    · injection h with h
      subst h
      exact ⟨trackerOk_append _ hs.1, trackerOk_append _ hs.2⟩

theorem inv_stepPlain (s : State) (line : String) : InvState (stepPlain s line) :=
  ⟨trivial, trivial⟩

theorem summaryLoop_eq :
    ∀ (ls : List String) (i : Nat) (doc : List Para),
      summaryLoop i doc ls = doc ++ (ls.enumFrom i).map summarySpecPara := by
  intro ls
  induction ls with
  | nil => intro i doc; simp [summaryLoop, List.enumFrom]
  | cons sl rest ih =>
    intro i doc
    by_cases hc : (i == 0 && containsSub usCitizenChars sl.data) = true
    · simp [summaryLoop, hc, List.enumFrom, ih, add_styled_paragraph,
        summarySpecPara, styledPara]
    · have hc' : (i == 0 && containsSub usCitizenChars sl.data) = false := by
        revert hc
        cases (i == 0 && containsSub usCitizenChars sl.data) <;> simp
      simp [summaryLoop, hc', List.enumFrom, ih, add_styled_paragraph,
        summarySpecPara, styledPara]

theorem inv_stepSummary {s : State} {t : String} (hs : InvState s) :
    InvState (stepSummary s t) := by
  unfold stepSummary
  rw [summaryLoop_eq]
  exact inv_doc_append _ hs

/-- Processing any single line preserves tracker soundness. -/
theorem processLine_inv {s s' : State} {raw : String}
    (hs : InvState s) (h : processLine s raw = Except.ok s') : InvState s' := by
  simp only [processLine] at h
  split at h
  · injection h with h; subst h; exact hs
  · split at h
    · injection h with h; subst h; exact inv_stepPlain s _
    · split at h
      · injection h with h; subst h; exact hs
      · split at h
        · injection h with h; subst h; exact inv_doc_append _ hs
        · injection h with h; subst h; exact inv_add_hline _ hs
        · injection h with h; subst h; exact inv_stepSummary hs
        · injection h with h; subst h; exact inv_add_hline _ hs
        · injection h with h; subst h
          rename_i ht k0 hft
          exact inv_stepJobTitle (findTag_ink hft ht) hs
        · injection h with h; subst h
          rename_i ht k0 hft
          exact inv_stepCompany (findTag_ink hft ht) hs
        · injection h with h; subst h; exact inv_stepDates hs
        · injection h with h; subst h; exact inv_doc_append _ hs
        · injection h with h; subst h; exact inv_doc_append _ hs
        · injection h with h; subst h; exact inv_doc_append _ hs
        · exact inv_stepSkills hs h
        · injection h with h; subst h
          rename_i ht k0 hft
          exact inv_stepEduDegree (findTag_ink hft ht) hs
        · injection h with h; subst h
          rename_i ht k0 hft
          exact inv_stepEduSchool (findTag_ink hft ht) hs
        · injection h with h; subst h; exact inv_stepEduDates hs
        · injection h with h; subst h; exact inv_doc_append _ hs
        · injection h with h; subst h; exact hs

/-- Every reachable interpreter state keeps both trackers sound. -/
theorem reachable_inv {s : State} (h : Reachable s) : InvState s := by
  induction h with
  | init => exact ⟨trivial, trivial⟩
  | step hr hp ih => exact processLine_inv ih hp

theorem reachable_jobTitleState : Reachable jobTitleState :=
  @Reachable.step initState jobTitleState ("[JOB_TITLE] Engineer") Reachable.init rfl

theorem reachable_eduDegreeState : Reachable eduDegreeState :=
  @Reachable.step initState eduDegreeState ("[EDUCATION_DEGREE] BS Physics")
    Reachable.init rfl

/-- A recognized marker line with a non-empty payload is handled by the
dispatch table for its kind. -/
theorem processLine_marker {s : State} {raw t : String} {k : Kind}
    (hp : findTag tagList (pstrip raw).data = some (k, t)) (ht : ¬ t = "") :
    processLine s raw = dispatchMarker s k t := by
  have h0 : ¬ pstrip raw = "" := by
    intro h0
    rw [h0] at hp
    exact Option.noConfusion (hp.symm.trans rfl)
  simp only [processLine]
  rw [if_neg h0, hp]
  show (if t = "" then Except.ok s else
    match k with
    | Kind.NAME => Except.ok (stepName s t)
    | Kind.CONTACT => Except.ok (stepContact s t)
    | Kind.SUMMARY => Except.ok (stepSummary s t)
    | Kind.SECTION_HEADER => Except.ok (stepSectionHeader s t)
    | Kind.JOB_TITLE => Except.ok (stepJobTitle s t)
    | Kind.COMPANY => Except.ok (stepCompany s t)
    | Kind.DATES => Except.ok (stepDates s t)
    | Kind.LOCATION => Except.ok (stepLocation s t)
    | Kind.BULLET => Except.ok (stepBullet s t)
    | Kind.SKILL_CATEGORY => Except.ok (stepSkillCategory s t)
    | Kind.SKILLS => stepSkills s t
    | Kind.EDUCATION_DEGREE => Except.ok (stepEduDegree s t)
    | Kind.EDUCATION_SCHOOL => Except.ok (stepEduSchool s t)
    | Kind.EDUCATION_DATES => Except.ok (stepEduDates s t)
    | Kind.EDUCATION_DETAILS => Except.ok (stepEduDetails s t)
    | Kind.PLAIN => Except.ok s) = dispatchMarker s k t
  rw [if_neg ht]
  cases k <;> rfl

/-- C1: for the three consecutive lines `[JOB_TITLE] Engineer`,
`[COMPANY] Acme`, `[DATES] 2020-2022`, the renderer emits exactly one
paragraph whose text reads `Engineer | Acme` followed by a right-aligned
tab segment `2020-2022`, and the open job tracker ends cleared. -/
theorem c1_title_company_date_pairing :
    ∃ p : Para,
      renderState ("[JOB_TITLE] Engineer\n[COMPANY] Acme\n[DATES] 2020-2022") =
        Except.ok { doc := [p], last_job_para := none, last_edu_para := none } ∧
      p.textData = ("Engineer | Acme\t2020-2022").data ∧
      p.tabStops = [{ pos := 5943600, align := Align.right }] ∧
      p.runs.map Run.text = [("Engineer"), (" | Acme"), ("\t2020-2022")] :=
  ⟨_, rfl, rfl, rfl, rfl⟩

/-- C8: with an unmatched plain line between `[JOB_TITLE] Engineer` and
`[DATES] 2020`, the plain line clears both trackers, so the date becomes
its own standalone right-aligned paragraph and the title and date end up
in two independent paragraphs. -/
theorem c8_pairing_reset_on_interruption :
    renderLines initState
        [("[JOB_TITLE] Engineer"), ("Some description text")] =
      Except.ok { doc := [styledPara ("Engineer") none true false none 0 0,
                         styledPara ("Some description text") none false false none 3 0],
                  last_job_para := none, last_edu_para := none } ∧
    renderState ("[JOB_TITLE] Engineer\nSome description text\n[DATES] 2020") =
      Except.ok { doc := [styledPara ("Engineer") none true false none 0 0,
                         styledPara ("Some description text") none false false none 3 0,
                         styledPara ("2020") none false false (some Align.right) 2 0],
                  last_job_para := none, last_edu_para := none } :=
  ⟨rfl, rfl⟩

/-- C7: a line holding any recognized marker tag with no payload is
recognized and skipped: it changes nothing, and in particular produces
zero paragraphs and no error. -/
theorem c7_empty_payload_emits_nothing (s : State) (k : Kind) (tag : String)
    (h : (k, tag.data) ∈ tagList) :
    (findTag tagList (pstrip ("[" ++ tag ++ "]")).data).isSome = true ∧
      processLine s ("[" ++ tag ++ "]") = Except.ok s := by
  obtain ⟨d⟩ := tag
  simp only [tagList, List.mem_cons, List.not_mem_nil, or_false, Prod.mk.injEq] at h
  rcases h with ⟨rfl, ht⟩ | ⟨rfl, ht⟩ | ⟨rfl, ht⟩ | ⟨rfl, ht⟩ | ⟨rfl, ht⟩ | ⟨rfl, ht⟩ |
    ⟨rfl, ht⟩ | ⟨rfl, ht⟩ | ⟨rfl, ht⟩ | ⟨rfl, ht⟩ | ⟨rfl, ht⟩ | ⟨rfl, ht⟩ |
    ⟨rfl, ht⟩ | ⟨rfl, ht⟩ | ⟨rfl, ht⟩ <;>
  · replace ht : d = _ := ht
    subst ht
    exact ⟨rfl, rfl⟩

theorem c7_empty_payload_emits_nothing_witness :
    (findTag tagList (pstrip ("[" ++ ("BULLET") ++ "]")).data).isSome = true ∧
      processLine initState ("[" ++ ("BULLET") ++ "]") = Except.ok initState :=
  c7_empty_payload_emits_nothing initState Kind.BULLET ("BULLET") (by decide)

/-- C9: in every reachable state, a set tracker points at an in-range
paragraph whose text has non-whitespace content (its Python
`text.strip()` is non-empty); empty-payload lines never set a tracker,
so the DATES handler, which only tests that the tracker is set, can
never attach a date to an empty-text paragraph. -/
theorem c9_trackers_point_at_inked_paragraphs (s : State) (h : Reachable s) :
    (∀ j, s.last_job_para = some j →
      j < s.doc.length ∧ hasInk (getP s.doc j).textData = true ∧
        ¬ pstripL (getP s.doc j).textData = []) ∧
    (∀ j, s.last_edu_para = some j →
      j < s.doc.length ∧ hasInk (getP s.doc j).textData = true ∧
        ¬ pstripL (getP s.doc j).textData = []) := by
  obtain ⟨h1, h2⟩ := reachable_inv h
  constructor
  · intro j hj
    rw [hj] at h1
    exact ⟨h1.1, h1.2, hasInk_of_pstrip_ne h1.2⟩
  · intro j hj
    rw [hj] at h2
    exact ⟨h2.1, h2.2, hasInk_of_pstrip_ne h2.2⟩

theorem c9_trackers_point_at_inked_paragraphs_witness :
    0 < jobTitleState.doc.length ∧
      hasInk (getP jobTitleState.doc 0).textData = true ∧
        ¬ pstripL (getP jobTitleState.doc 0).textData = [] :=
  (c9_trackers_point_at_inked_paragraphs jobTitleState reachable_jobTitleState).1 0 rfl

/-- C5: on every reachable state the EDUCATION_DATES handler is exactly
the DATES handler with the two trackers exchanged, the paragraph
mutation applied in the attach case is identical for both, and the
right-aligned tab stop sits at the same fixed offset `Inches(6.5)`
(5943600 EMU) for job-date and education-date pairings. -/
theorem c5_edu_dates_mirrors_dates (s : State) (h : Reachable s) (t : String) :
    stepEduDates s t = swapState (stepDates (swapState s) t) ∧
    attachEduDates t = attachJobDates t ∧
    (∀ p, (attachJobDates t p).tabStops =
      p.tabStops ++ [{ pos := 5943600, align := Align.right }]) := by
  refine ⟨?_, rfl, fun p => rfl⟩
  obtain ⟨hA, hB⟩ := reachable_inv h
  obtain ⟨doc, jo, eo⟩ := s
  simp only [stepEduDates, stepDates, swapState]
  cases eo with
  | none => rfl
  | some j =>
    have hne : ¬ pstripL (getP doc j).textData = [] :=
      hasInk_of_pstrip_ne hB.2
    have hEq : attachEduDates t = attachJobDates t := rfl
    simp [hne, hEq]

theorem c5_edu_dates_mirrors_dates_witness :
    stepEduDates eduDegreeState ("2019") =
      swapState (stepDates (swapState eduDegreeState) ("2019")) :=
  (c5_edu_dates_mirrors_dates eduDegreeState reachable_eduDegreeState ("2019")).1

/-- C10: a consumed marker line with empty payload, or a line of one of
the kinds NAME, CONTACT, SUMMARY, SECTION_HEADER, LOCATION, BULLET,
SKILL_CATEGORY, SKILLS or EDUCATION_DETAILS, leaves both trackers
unchanged (the hypothesis also admits a blank line, which is skipped);
only DATES/EDUCATION_DATES, the title/company kinds, and an unmatched
non-empty plain line can alter a tracker. -/
theorem c10_frame_of_non_pairing_lines (s : State) (raw : String) (s' : State)
    (h : processLine s raw = Except.ok s')
    (hf : match findTag tagList (pstrip raw).data with
          | some kt => kt.2 = "" ∨ kt.1 ∈ frameKinds
          | none => pstrip raw = "") :
    s'.last_job_para = s.last_job_para ∧ s'.last_edu_para = s.last_edu_para := by
  simp only [processLine] at h
  split at h
  · injection h with h; subst h; exact ⟨rfl, rfl⟩
  · split at h
    · rename_i hne hx hft
      rw [hft] at hf
      exact absurd hf hne
    · split at h
      · injection h with h; subst h; exact ⟨rfl, rfl⟩
      · rename_i hne k0 t0 hft ht
        rw [hft] at hf
        have hf' : t0 = "" ∨ k0 ∈ frameKinds := hf
        have hk : k0 ∈ frameKinds := by
          rcases hf' with h0 | hk
          · exact absurd h0 ht
          · exact hk
        split at h
        · injection h with h; subst h; exact ⟨rfl, rfl⟩
        · injection h with h; subst h; exact ⟨rfl, rfl⟩
        · injection h with h; subst h; exact ⟨rfl, rfl⟩
        · injection h with h; subst h; exact ⟨rfl, rfl⟩
        · exact absurd hk (by decide)
        · exact absurd hk (by decide)
        · exact absurd hk (by decide)
        · injection h with h; subst h; exact ⟨rfl, rfl⟩
        · injection h with h; subst h; exact ⟨rfl, rfl⟩
        · injection h with h; subst h; exact ⟨rfl, rfl⟩
        · unfold stepSkills at h
          split at h
          · cases h
          · split at h
            · injection h with h; subst h; exact ⟨rfl, rfl⟩
            · injection h with h; subst h; exact ⟨rfl, rfl⟩
        · exact absurd hk (by decide)
        · exact absurd hk (by decide)
        · exact absurd hk (by decide)
        · injection h with h; subst h; exact ⟨rfl, rfl⟩
        · exact absurd hk (by decide)

theorem c10_frame_of_non_pairing_lines_witness :
    (processLine jobTitleState ("[LOCATION] New York") =
      Except.ok { jobTitleState with
        doc := jobTitleState.doc ++
          [styledPara ("New York") (some 9) false true none 2 0] }) ∧
    ({ jobTitleState with
        doc := jobTitleState.doc ++
          [styledPara ("New York") (some 9) false true none 2 0] } : State).last_job_para =
      jobTitleState.last_job_para ∧
    ({ jobTitleState with
        doc := jobTitleState.doc ++
          [styledPara ("New York") (some 9) false true none 2 0] } : State).last_edu_para =
      jobTitleState.last_edu_para :=
  ⟨rfl, c10_frame_of_non_pairing_lines jobTitleState ("[LOCATION] New York") _ rfl
    (Or.inr (by decide))⟩

/-- Processing lines none of which matches any marker always succeeds
and only ever appends default plain paragraphs. -/
theorem renderLines_plain :
    ∀ (ls : List String) (s : State),
      (∀ l ∈ ls, findTag tagList (pstrip l).data = none) →
      (∀ p ∈ s.doc, ∃ t, p = styledPara t none false false none 3 0) →
      ∃ s', renderLines s ls = Except.ok s' ∧
        ∀ p ∈ s'.doc, ∃ t, p = styledPara t none false false none 3 0 := by
  intro ls
  induction ls with
  | nil => intro s _ hdoc; exact ⟨s, rfl, hdoc⟩
  | cons l rest ih =>
    intro s hl hdoc
    have hl0 : findTag tagList (pstrip l).data = none := hl l (by simp)
    have hrest : ∀ l' ∈ rest, findTag tagList (pstrip l').data = none :=
      fun l' hm => hl l' (by simp [hm])
    by_cases h0 : pstrip l = ""
    · have hpl : processLine s l = Except.ok s := by
        simp only [processLine]
        rw [if_pos h0]
      obtain ⟨s', hs', hplain⟩ := ih s hrest hdoc
      refine ⟨s', ?_, hplain⟩
      simp only [renderLines, hpl]
      exact hs'
    · have hpl : processLine s l = Except.ok (stepPlain s (pstrip l)) := by
        simp only [processLine]
        rw [if_neg h0, hl0]
      have hdoc' : ∀ p ∈ (stepPlain s (pstrip l)).doc,
          ∃ t, p = styledPara t none false false none 3 0 := by
        intro p hp
        simp only [stepPlain, add_styled_paragraph] at hp
        rcases List.mem_append.mp hp with h1 | h2
        · exact hdoc p h1
        · simp at h2
          exact ⟨pstrip l, h2⟩
      obtain ⟨s', hs', hplain⟩ := ih (stepPlain s (pstrip l)) hrest hdoc'
      refine ⟨s', ?_, hplain⟩
      simp only [renderLines, hpl]
      exact hs'

/-- C2: for empty, whitespace-only, or fully unparseable input (no line
matches any marker), `text_to_docx` returns a complete document and
never raises; every paragraph produced is a default-styled PLAIN
paragraph, and empty or whitespace-only input yields zero paragraphs. -/
theorem c2_unparseable_degrades_to_plain (s : String)
    (h : ∀ l ∈ linesOf s, findTag tagList (pstrip l).data = none) :
    ∃ d, text_to_docx s = Except.ok d ∧
      (∀ p ∈ d, ∃ t, p = styledPara t none false false none 3 0) ∧
      (pstrip s = "" → d = []) := by
  by_cases h0 : pstrip s = ""
  · refine ⟨[], ?_, by simp, fun _ => rfl⟩
    have hlines : linesOf s = [("")] := by
      unfold linesOf
      rw [h0]
      rfl
    unfold text_to_docx renderState
    rw [hlines]
    rfl
  · obtain ⟨s', hs', hplain⟩ :=
      renderLines_plain (linesOf s) initState h (by simp [initState])
    refine ⟨s'.doc, ?_, hplain, fun hc => absurd hc h0⟩
    unfold text_to_docx renderState
    rw [hs']
    rfl

theorem c2_unparseable_degrades_to_plain_witness :
    (∀ l ∈ linesOf ("Experienced engineer\n\nNo markers on any line"),
      findTag tagList (pstrip l).data = none) ∧
    (∃ d, text_to_docx ("Experienced engineer\n\nNo markers on any line") = Except.ok d ∧
      (∀ p ∈ d, ∃ t, p = styledPara t none false false none 3 0) ∧
      (pstrip ("Experienced engineer\n\nNo markers on any line") = "" → d = [])) :=
  ⟨by decide, c2_unparseable_degrades_to_plain _ (by decide)⟩

/-- C3 counterexample: the SUMMARY handler is not content-uniform — the
hardcoded phrase `US Citizen` makes the first sub-line bold, while an
otherwise identical payload stays at default weight. -/
theorem c3_counterexample_us_citizen_special_case :
    text_to_docx ("[SUMMARY] US Citizen") =
      Except.ok [styledPara ("US Citizen") none true false none 2 0] ∧
    text_to_docx ("[SUMMARY] US Resident") =
      Except.ok [styledPara ("US Resident") none false false none 2 0] :=
  ⟨rfl, rfl⟩

/-- C3 (amended): every SUMMARY payload is split on embedded newlines
and each sub-line becomes one paragraph of default weight, except that
the first sub-line is emitted bold when it contains the hardcoded
literal phrase `US Citizen`; the trackers are untouched. -/
theorem c3_summary_sublines (s : State) (raw t : String)
    (hp : findTag tagList (pstrip raw).data = some (Kind.SUMMARY, t))
    (ht : ¬ t = "") :
    processLine s raw = Except.ok { s with
      doc := s.doc ++ (((splitSep (['\n']) t.data).map String.mk).enum.map summarySpecPara) } := by
  rw [processLine_marker hp ht]
  show Except.ok (stepSummary s t) = _
  unfold stepSummary
  rw [summaryLoop_eq]
  rfl

theorem c3_summary_sublines_witness :
    findTag tagList (pstrip ("[SUMMARY] Cloud architect and team lead")).data =
      some (Kind.SUMMARY, ("Cloud architect and team lead")) ∧
    processLine initState ("[SUMMARY] Cloud architect and team lead") =
      Except.ok { initState with
        doc := initState.doc ++ (((splitSep (['\n']) ("Cloud architect and team lead").data).map String.mk).enum.map summarySpecPara) } :=
  ⟨rfl, c3_summary_sublines initState _ _ rfl (by decide)⟩

/-- C4 counterexample: a SKILLS line arriving when no paragraph has been
emitted yet does not create a standalone paragraph — `paragraphs[-1]`
raises IndexError and `text_to_docx` re-raises it. -/
theorem c4_counterexample_skills_first_line :
    text_to_docx ("[SKILLS] Go, Rust") = Except.error DocxError.indexError :=
  rfl

/-- C4 (amended): for a non-empty SKILLS payload arriving when at least
one paragraph exists, the payload is appended inline onto the last
paragraph exactly when that paragraph's text ends with the literal
`": "` (whatever marker produced it), and otherwise a new standalone
paragraph is created; only when no paragraph exists at all does the
handler fail with an index error instead. -/
theorem c4_skills_inline_iff_colon_space (s : State) (raw t : String)
    (hp : findTag tagList (pstrip raw).data = some (Kind.SKILLS, t))
    (ht : ¬ t = "") (hd : ¬ s.doc = []) :
    processLine s raw = Except.ok
      (if endsWithColonSpace (getP s.doc (s.doc.length - 1)).textData
       then { s with doc := modifyAt s.doc (s.doc.length - 1) (attachSkillsRun t) }
       else { s with doc := add_styled_paragraph s.doc t none false false none 3 0 }) := by
  rw [processLine_marker hp ht]
  show stepSkills s t = _
  unfold stepSkills
  rw [getLast?_eq_getP hd]
  cases hc : endsWithColonSpace (getP s.doc (s.doc.length - 1)).textData <;>
    simp [hc]

theorem c4_skills_inline_iff_colon_space_witness :
    (¬ skillCatState.doc = []) ∧
    endsWithColonSpace (getP skillCatState.doc (skillCatState.doc.length - 1)).textData = true ∧
    processLine skillCatState ("[SKILLS] Go, Rust") = Except.ok
      (if endsWithColonSpace (getP skillCatState.doc (skillCatState.doc.length - 1)).textData
       then { skillCatState with doc := modifyAt skillCatState.doc (skillCatState.doc.length - 1) (attachSkillsRun ("Go, Rust")) }
       else { skillCatState with doc := add_styled_paragraph skillCatState.doc ("Go, Rust") none false false none 3 0 }) :=
  ⟨by decide, rfl,
    c4_skills_inline_iff_colon_space skillCatState ("[SKILLS] Go, Rust") ("Go, Rust")
      rfl (by decide) (by decide)⟩

/-- The loop's period condition (index below last, or no terminal
punctuation) is the negation of the spec's keep-as-is condition (final
index and terminal punctuation), for indices in range. -/
theorem bullet_cond_eq (i n : Nat) (b : Bool) (h : i < n) :
    (decide (i < n - 1) || !b) = !((i == n - 1) && b) := by
  by_cases hi : i = n - 1
  · subst hi
    cases b <;> simp [Nat.lt_irrefl]
  · have h2 : i < n - 1 := by omega
    have h3 : (i == n - 1) = false := by simp [hi]
    cases b <;> simp [h2, h3]

theorem bulletLoop_false_map (n level : Nat) :
    ∀ (ss : List String) (i : Nat), i + ss.length ≤ n →
      (bulletLoopRuns n level false i ss).map (setRunSize 10) =
        ((ss.enumFrom i).filter keepSentence).map (specRunOf n false) := by
  intro ss
  induction ss with
  | nil => intro i hi; simp [bulletLoopRuns, List.enumFrom]
  | cons sent rest ih =>
    intro i hi
    simp only [List.length_cons] at hi
    have hi' : (i + 1) + rest.length ≤ n := by omega
    by_cases hb : pstrip sent = ""
    · have hk : keepSentence (i, sent) = false := by simp [keepSentence, hb]
      simp [bulletLoopRuns, hb, List.enumFrom, List.filter_cons, hk, ih _ hi']
    · have hk : keepSentence (i, sent) = true := by simp [keepSentence, hb]
      have hcond := bullet_cond_eq i n (endsTerminal sent) (by omega)
      cases hc2 : ((i == n - 1) && endsTerminal sent) with
      | true =>
        simp [bulletLoopRuns, hb, List.enumFrom, List.filter_cons, hk, ih _ hi',
          setRunSize, hcond, hc2, specRunOf, specFixSentence]
      | false =>
        simp [bulletLoopRuns, hb, List.enumFrom, List.filter_cons, hk, ih _ hi',
          setRunSize, hcond, hc2, specRunOf, specFixSentence]

theorem bulletLoop_true_map (n level : Nat) :
    ∀ (ss : List String) (i : Nat), i + ss.length ≤ n →
      (bulletLoopRuns n level true i ss).map (setRunSize 10) =
        (match (ss.enumFrom i).filter keepSentence with
         | [] => []
         | q :: qs => specRunOf n (level == 0) q :: qs.map (specRunOf n false)) := by
  intro ss
  induction ss with
  | nil => intro i hi; simp [bulletLoopRuns, List.enumFrom]
  | cons sent rest ih =>
    intro i hi
    simp only [List.length_cons] at hi
    have hi' : (i + 1) + rest.length ≤ n := by omega
    by_cases hb : pstrip sent = ""
    · have hk : keepSentence (i, sent) = false := by simp [keepSentence, hb]
      simp [bulletLoopRuns, hb, List.enumFrom, List.filter_cons, hk, ih _ hi']
    · have hk : keepSentence (i, sent) = true := by simp [keepSentence, hb]
      have hcond := bullet_cond_eq i n (endsTerminal sent) (by omega)
      cases hc2 : ((i == n - 1) && endsTerminal sent) with
      | true =>
        simp [bulletLoopRuns, hb, List.enumFrom, List.filter_cons, hk,
          bulletLoop_false_map n level rest _ hi', setRunSize, hcond, hc2,
          specRunOf, specFixSentence]
      | false =>
        simp [bulletLoopRuns, hb, List.enumFrom, List.filter_cons, hk,
          bulletLoop_false_map n level rest _ hi', setRunSize, hcond, hc2,
          specRunOf, specFixSentence]

theorem enumFrom_map_not_first (n : Nat) (lv : Bool) :
    ∀ (qs : List (Nat × String)) (k : Nat), ¬ k = 0 →
      (List.enumFrom k qs).map (fun z => specRunOf n (z.1 == 0 && lv) z.2) =
        qs.map (specRunOf n false) := by
  intro qs
  induction qs with
  | nil => intro k _; rfl
  | cons q rest ih =>
    intro k hk
    have hk0 : (k == 0) = false := by simp [hk]
    simp [List.enumFrom, hk0, ih (k + 1) (by omega)]

theorem enum_map_first_bold (n : Nat) (lv : Bool) (l : List (Nat × String)) :
    l.enum.map (fun z => specRunOf n (z.1 == 0 && lv) z.2) =
      (match l with
       | [] => []
       | q :: qs => specRunOf n lv q :: qs.map (specRunOf n false)) := by
  cases l with
  | nil => rfl
  | cons q qs =>
    simp [List.enum_cons, enumFrom_map_not_first n lv qs 1 (by omega)]

/-- The bullet paragraph built by the code's run loop is exactly the
paragraph the spec describes. -/
theorem add_bullet_point_eq_spec (t : String) :
    add_bullet_point t 0 = specBulletPara t := by
  simp only [add_bullet_point, specBulletPara, specBulletRuns]
  have hlen : ∀ ss : List String, 0 + ss.length ≤ ss.length := by intro ss; omega
  rw [bulletLoop_true_map _ 0 _ 0 (hlen _)]
  rw [show ((splitSep (['.', ' ']) t.data).map String.mk).enum =
    List.enumFrom 0 ((splitSep (['.', ' ']) t.data).map String.mk) from rfl]
  rw [← enum_map_first_bold]

/-- C6: a recognized non-empty BULLET line appends exactly one
`List Bullet` paragraph whose runs are the payload split on `". "` with
blank sentences skipped, a period re-appended to every sentence except a
final one already ending in `.`, `!` or `?`, and the first kept sentence
bold at nesting level 0; the trackers are untouched. -/
theorem c6_bullet_sentence_splitting (s : State) (raw t : String)
    (hp : findTag tagList (pstrip raw).data = some (Kind.BULLET, t))
    (ht : ¬ t = "") :
    processLine s raw = Except.ok { s with doc := s.doc ++ [specBulletPara t] } := by
  rw [processLine_marker hp ht]
  show Except.ok (stepBullet s t) = _
  unfold stepBullet
  rw [add_bullet_point_eq_spec]

theorem c6_bullet_sentence_splitting_witness :
    findTag tagList (pstrip ("[BULLET] Did X. Led Y and Z")).data =
      some (Kind.BULLET, ("Did X. Led Y and Z")) ∧
    processLine initState ("[BULLET] Did X. Led Y and Z") =
      Except.ok { initState with doc := initState.doc ++ [specBulletPara ("Did X. Led Y and Z")] } ∧
    specBulletRuns ("Did X. Led Y and Z") 0 =
      [{ text := ("Did X. "), bold := true, italic := false, size := some 10 },
       { text := ("Led Y and Z. "), bold := false, italic := false, size := some 10 }] :=
  ⟨rfl,
   c6_bullet_sentence_splitting initState _ _ rfl (by decide),
   by decide⟩
